import Mathlib

/-!
Shallow embedding of `src/components/SnakeGame.tsx` (digital-snake-antics).

The component's reactive state cells (`snake`, `food`, `direction`,
`gameRunning`, `score`, `gameOver`, `highScore`) become the fields of
`GameState`.  Each handler (`moveSnake`, `resetGame`, `startGame`,
`pauseGame`, the `handleKeyPress` listener) becomes a state-transition
function.  Randomness (`Math.floor(Math.random() * GRID_SIZE)` pairs) is
modelled by an explicit list of candidate cells consumed by
`generateFood`; exhausting the list models non-termination of the
unbounded `do`/`while` resampling loop, so `moveSnake` returns an
`Option`.  Writes to `localStorage` are collected in an output list.
-/

namespace Snake

/-- Model of `interface Position { x: number; y: number }`.  Coordinates are
integers in every reachable state (the source only adds the unit-vector
direction components), so we embed them as `Int`. -/
structure Position where
  x : Int
  y : Int
deriving DecidableEq

/-- Source constant `const GRID_SIZE = 20`. -/
def GRID_SIZE : Int := 20

/-- Source constant `const INITIAL_SNAKE = [\x7b x: 10, y: 10 \x7d]`. -/
def INITIAL_SNAKE : List Position := [⟨10, 10⟩]

/-- Source constant `const INITIAL_FOOD = \x7b x: 5, y: 5 \x7d`. -/
def INITIAL_FOOD : Position := ⟨5, 5⟩

/-- Source constant `const INITIAL_DIRECTION = \x7b x: 0, y: -1 \x7d`. -/
def INITIAL_DIRECTION : Position := ⟨0, -1⟩

/-- The component's reactive state cells, gathered into one record. -/
structure GameState where
  snake : List Position
  food : Position
  direction : Position
  gameRunning : Bool
  score : Int
  gameOver : Bool
  highScore : Int
deriving DecidableEq

/-- Occupancy test `snake.some(segment => segment.x === p.x && segment.y === p.y)` —
the occupancy test used both by `generateFood` and by the
self-collision check. -/
def occupiesCell (snake : List Position) (p : Position) : Bool :=
  snake.any fun segment => segment.x == p.x && segment.y == p.y

/-- Model of `generateFood`: the resampling loop draws random cells until one
is not occupied by `snake` (the snake captured in the callback's
closure).  The draws are supplied as an explicit list; `none` models
the loop never finding a free cell within the supplied draws. -/
def generateFood (snake : List Position) : List Position → Option Position
  | [] => none
  | cand :: rest =>
    if occupiesCell snake cand then generateFood snake rest else some cand

/-- Initial component state: `useState` initialisers; `highScore` is
whatever was loaded from the persistent store. -/
def initialState (storedHighScore : Int) : GameState :=
  { snake := INITIAL_SNAKE, food := INITIAL_FOOD, direction := INITIAL_DIRECTION,
    gameRunning := false, score := 0, gameOver := false,
    highScore := storedHighScore }

/-- Model of `resetGame`: restores snake, food, direction, score, gameOver,
gameRunning to their initial values; `highScore` is not touched. -/
def resetGame (s : GameState) : GameState :=
  { s with snake := INITIAL_SNAKE, food := INITIAL_FOOD,
           direction := INITIAL_DIRECTION, score := 0,
           gameOver := false, gameRunning := false }

/-- Model of `startGame`: `if (gameOver) resetGame(); setGameRunning(true)`. -/
def startGame (s : GameState) : GameState :=
  let s1 := if s.gameOver then resetGame s else s
  { s1 with gameRunning := true }

/-- Model of `pauseGame`: `setGameRunning(false)`. -/
def pauseGame (s : GameState) : GameState :=
  { s with gameRunning := false }

/-- One invocation of `moveSnake`.  `rand` supplies the random draws
`generateFood` would make on this tick.  The second component of the
result lists the values written to `localStorage` under
`snakeHighScore` during the tick.  `none` arises only when
`generateFood` exhausts its draws (the unbounded resampling loop fails
to terminate) or when the snake list is empty, a state the component
never reaches (`newSnake[0]` would be `undefined` there). -/
def moveSnake (rand : List Position) (s : GameState) : Option (GameState × List Int) :=
  if s.gameRunning = false ∨ s.gameOver = true then some (s, [])
  else
    match s.snake with
    | [] => none
    | h :: _ =>
      let head : Position := ⟨h.x + s.direction.x, h.y + s.direction.y⟩
      if head.x < 0 ∨ head.x ≥ GRID_SIZE ∨ head.y < 0 ∨ head.y ≥ GRID_SIZE then
        some ({ s with gameOver := true, gameRunning := false }, [])
      else if occupiesCell s.snake head then
        some ({ s with gameOver := true, gameRunning := false }, [])
      else
        let newSnake := head :: s.snake
        if head.x = s.food.x ∧ head.y = s.food.y then
          match generateFood s.snake rand with
          | none => none
          | some newFood =>
            let newScore := s.score + 10
            if newScore > s.highScore then
              some ({ s with snake := newSnake, food := newFood,
                             score := newScore, highScore := newScore },
                    [newScore])
            else
              some ({ s with snake := newSnake, food := newFood,
                             score := newScore }, [])
        else
          some ({ s with snake := newSnake.dropLast }, [])

/-- The keys the `keydown` listener distinguishes. -/
inductive Key where
  | arrowUp
  | arrowDown
  | arrowLeft
  | arrowRight
  | space
  | other
deriving DecidableEq

/-- The `handleKeyPress` listener: ignores everything unless
`gameRunning`; arrows update `direction` guarded by the axis test;
Space calls `pauseGame`. -/
def handleKeyPress (k : Key) (s : GameState) : GameState :=
  if s.gameRunning = false then s
  else
    match k with
    | .arrowUp => if s.direction.y = 0 then { s with direction := ⟨0, -1⟩ } else s
    | .arrowDown => if s.direction.y = 0 then { s with direction := ⟨0, 1⟩ } else s
    | .arrowLeft => if s.direction.x = 0 then { s with direction := ⟨-1, 0⟩ } else s
    | .arrowRight => if s.direction.x = 0 then { s with direction := ⟨1, 0⟩ } else s
    | .space => pauseGame s
    | .other => s

/-- Scenario driver: one tick with no random draws (sufficient whenever
the tick eats no food), keeping the state unchanged in the `none`
case that the scenarios never hit. -/
def tick (s : GameState) : GameState :=
  match moveSnake [] s with
  | some (s1, _) => s1
  | none => s

/-- The whitespace characters `parseInt` strips from the front of its
argument (the common ASCII subset of JavaScript `StrWhiteSpace`). -/
def jsIsSpace (c : Char) : Bool :=
  c == ' ' || c == '\t' || c == '\n' || c == '\r'

/-- Decimal-digit accumulation of JavaScript `parseInt`: consume the
maximal leading run of digits, left to right. -/
def jsParseDigits : List Char → Nat → Nat
  | [], acc => acc
  | c :: cs, acc =>
    if c.isDigit then jsParseDigits cs (acc * 10 + (c.toNat - 48)) else acc

/-- JavaScript `parseInt(s)` (radix-10 path): strip leading whitespace,
read an optional sign, then the maximal run of decimal digits; `none`
models the `NaN` result when no digit follows.  (The `0x` hex-prefix
special case of `parseInt` is not modelled; no claim depends on it.) -/
def parseIntJs (s : String) : Option Int :=
  match s.data.dropWhile jsIsSpace with
  | [] => none
  | c :: cs =>
    if c = '-' then
      match cs with
      | [] => none
      | c2 :: _ => if c2.isDigit then some (-(jsParseDigits cs 0 : Int)) else none
    else if c = '+' then
      match cs with
      | [] => none
      | c2 :: _ => if c2.isDigit then some (jsParseDigits cs 0 : Int) else none
    else if c.isDigit then some (jsParseDigits (c :: cs) 0 : Int)
    else none

/-- The `highScore` `useState` initialiser:
`const saved = localStorage.getItem(...); return saved ? parseInt(saved) : 0`.
The argument is the stored value (`none` = key absent); the result is
the JavaScript number that becomes the initial `highScore`, with `none`
standing for `NaN`.  A present but empty string is falsy in JavaScript,
hence also yields 0. -/
def loadHighScore (saved : Option String) : Option Int :=
  match saved with
  | none => some 0
  | some s => if s = "" then some 0 else parseIntJs s

/-- Decimal digit list (most significant first) of a natural number;
reference spine used to reason about `Nat.repr`. -/
def decDigits (n : Nat) : List Char :=
  if _h : n < 10 then [Nat.digitChar n]
  else decDigits (n / 10) ++ [Nat.digitChar (n % 10)]
termination_by n
decreasing_by exact Nat.div_lt_self (by omega) (by omega)

/-- Reduction of `moveSnake` when the `!gameRunning || gameOver` early
return fires. -/
theorem moveSnake_idle (rand : List Position) (s : GameState)
    (hguard : s.gameRunning = false ∨ s.gameOver = true) :
    moveSnake rand s = some (s, []) := by
  unfold moveSnake
  rw [if_pos hguard]

/-- Reduction of `moveSnake` on the unreachable empty snake. -/
theorem moveSnake_nil (rand : List Position) (s : GameState)
    (hrun : s.gameRunning = true) (hover : s.gameOver = false)
    (hsnake : s.snake = []) :
    moveSnake rand s = none := by
  unfold moveSnake
  rw [if_neg (by simp [hrun, hover]), hsnake]

/-- Full reduction of `moveSnake` on a running, unfinished state with a
non-empty snake: the body with the head and the match unfolded. -/
theorem moveSnake_cons (rand : List Position) (s : GameState)
    (h : Position) (t : List Position)
    (hsnake : s.snake = h :: t) (hrun : s.gameRunning = true)
    (hover : s.gameOver = false) :
    moveSnake rand s =
      (if h.x + s.direction.x < 0 ∨ h.x + s.direction.x ≥ GRID_SIZE ∨
          h.y + s.direction.y < 0 ∨ h.y + s.direction.y ≥ GRID_SIZE then
        some ({ s with gameOver := true, gameRunning := false }, [])
      else if occupiesCell (h :: t) ⟨h.x + s.direction.x, h.y + s.direction.y⟩ then
        some ({ s with gameOver := true, gameRunning := false }, [])
      else if h.x + s.direction.x = s.food.x ∧ h.y + s.direction.y = s.food.y then
        match generateFood (h :: t) rand with
        | none => none
        | some newFood =>
          if s.score + 10 > s.highScore then
            some ({ s with
                      snake := (⟨h.x + s.direction.x, h.y + s.direction.y⟩ : Position) :: h :: t,
                      food := newFood, score := s.score + 10,
                      highScore := s.score + 10 }, [s.score + 10])
          else
            some ({ s with
                      snake := (⟨h.x + s.direction.x, h.y + s.direction.y⟩ : Position) :: h :: t,
                      food := newFood, score := s.score + 10 }, [])
      else
        some ({ s with
                  snake := ((⟨h.x + s.direction.x, h.y + s.direction.y⟩ : Position) :: h :: t).dropLast },
              [])) := by
  unfold moveSnake
  rw [if_neg (by simp [hrun, hover]), hsnake]

theorem occupiesCell_iff (snake : List Position) (p : Position) :
    occupiesCell snake p = true ↔ p ∈ snake := by
  unfold occupiesCell
  rw [List.any_eq_true]
  constructor
  · rintro ⟨q, hq, hxy⟩
    simp only [Bool.and_eq_true, beq_iff_eq] at hxy
    obtain ⟨hx, hy⟩ := hxy
    cases p; cases q
    simp_all
  · intro hp
    exact ⟨p, hp, by simp⟩

/-- C2: while running and not over, a tick whose new head leaves the
grid or hits the snake only flips `gameOver` on and `gameRunning` off:
snake, food, score (and direction, highScore) are exactly as before,
and nothing is written to the store. -/
theorem C2_terminal_tick_atomic (s : GameState) (rand : List Position)
    (h : Position) (t : List Position)
    (hrun : s.gameRunning = true) (hover : s.gameOver = false)
    (hsnake : s.snake = h :: t)
    (hcol : (h.x + s.direction.x < 0 ∨ h.x + s.direction.x ≥ GRID_SIZE ∨
             h.y + s.direction.y < 0 ∨ h.y + s.direction.y ≥ GRID_SIZE) ∨
            (⟨h.x + s.direction.x, h.y + s.direction.y⟩ : Position) ∈ s.snake) :
    moveSnake rand s = some ({ s with gameOver := true, gameRunning := false }, []) := by
  unfold moveSnake
  rw [if_neg (by simp [hrun, hover]), hsnake]
  show (if _ then _ else _) = _
  by_cases hw : h.x + s.direction.x < 0 ∨ h.x + s.direction.x ≥ GRID_SIZE ∨
      h.y + s.direction.y < 0 ∨ h.y + s.direction.y ≥ GRID_SIZE
  · rw [if_pos hw]
  · rw [if_neg hw]
    rcases hcol with hw2 | hm
    · exact absurd hw2 hw
    · rw [hsnake] at hm
      rw [if_pos ((occupiesCell_iff _ _).mpr hm)]

theorem C2_witness :
    moveSnake []
        { snake := [⟨0, 0⟩], food := ⟨5, 5⟩, direction := ⟨0, -1⟩,
          gameRunning := true, score := 0, gameOver := false, highScore := 0 } =
      some ({ snake := [⟨0, 0⟩], food := ⟨5, 5⟩, direction := ⟨0, -1⟩,
              gameRunning := false, score := 0, gameOver := true, highScore := 0 }, []) :=
  C2_terminal_tick_atomic
    { snake := [⟨0, 0⟩], food := ⟨5, 5⟩, direction := ⟨0, -1⟩,
      gameRunning := true, score := 0, gameOver := false, highScore := 0 }
    [] ⟨0, 0⟩ [] rfl rfl rfl (by decide)

/-- C1 (failing-input evaluation): from snake `[(1,1)]`, food `(2,1)`,
direction `(1,0)`, with the single random draw `(2,1)`, the tick eats
the food and `generateFood` returns `(2,1)` — the cell of the new
head — because the resampling loop tests candidates against the
pre-step snake captured in its closure.  The installed food cell lies
inside the post-step snake, where the claim says it never is. -/
theorem C1_regenerated_food_on_new_head :
    moveSnake [⟨2, 1⟩]
        { snake := [⟨1, 1⟩], food := ⟨2, 1⟩, direction := ⟨1, 0⟩,
          gameRunning := true, score := 0, gameOver := false, highScore := 0 } =
      some ({ snake := [⟨2, 1⟩, ⟨1, 1⟩], food := ⟨2, 1⟩, direction := ⟨1, 0⟩,
              gameRunning := true, score := 10, gameOver := false, highScore := 10 },
            [10]) ∧
    (⟨2, 1⟩ : Position) ∈ [(⟨2, 1⟩ : Position), ⟨1, 1⟩] := by
  constructor
  · decide
  · simp

/-- C4: arrow keys are inert unless `gameRunning`; while running, Up
and Down are rejected exactly when `direction.y ≠ 0` and otherwise set
the direction to their unit vector, Left and Right are rejected exactly
when `direction.x ≠ 0` and otherwise set it; consequently an exact
180° reversal is always rejected. -/
theorem C4_axis_based_direction_changes :
    (∀ (s : GameState) (k : Key), s.gameRunning = false → handleKeyPress k s = s) ∧
    (∀ s : GameState, s.gameRunning = true →
      (s.direction.y = 0 → handleKeyPress Key.arrowUp s = { s with direction := ⟨0, -1⟩ }) ∧
      (s.direction.y ≠ 0 → handleKeyPress Key.arrowUp s = s) ∧
      (s.direction.y = 0 → handleKeyPress Key.arrowDown s = { s with direction := ⟨0, 1⟩ }) ∧
      (s.direction.y ≠ 0 → handleKeyPress Key.arrowDown s = s) ∧
      (s.direction.x = 0 → handleKeyPress Key.arrowLeft s = { s with direction := ⟨-1, 0⟩ }) ∧
      (s.direction.x ≠ 0 → handleKeyPress Key.arrowLeft s = s) ∧
      (s.direction.x = 0 → handleKeyPress Key.arrowRight s = { s with direction := ⟨1, 0⟩ }) ∧
      (s.direction.x ≠ 0 → handleKeyPress Key.arrowRight s = s)) ∧
    (∀ s : GameState, s.gameRunning = true →
      (s.direction = ⟨1, 0⟩ → handleKeyPress Key.arrowLeft s = s) ∧
      (s.direction = ⟨-1, 0⟩ → handleKeyPress Key.arrowRight s = s) ∧
      (s.direction = ⟨0, 1⟩ → handleKeyPress Key.arrowUp s = s) ∧
      (s.direction = ⟨0, -1⟩ → handleKeyPress Key.arrowDown s = s)) := by
  refine ⟨?_, ?_, ?_⟩
  · intro s k hidle
    unfold handleKeyPress
    rw [if_pos hidle]
  · intro s hrun
    refine ⟨fun hy => ?_, fun hy => ?_, fun hy => ?_, fun hy => ?_,
            fun hx => ?_, fun hx => ?_, fun hx => ?_, fun hx => ?_⟩ <;>
      simp_all [handleKeyPress]
  · intro s hrun
    refine ⟨fun hd => ?_, fun hd => ?_, fun hd => ?_, fun hd => ?_⟩ <;>
      simp_all [handleKeyPress]

theorem C4_witness :
    handleKeyPress Key.arrowLeft
        { snake := [⟨1, 1⟩], food := ⟨2, 1⟩, direction := ⟨1, 0⟩,
          gameRunning := true, score := 0, gameOver := false, highScore := 0 } =
      { snake := [⟨1, 1⟩], food := ⟨2, 1⟩, direction := ⟨1, 0⟩,
        gameRunning := true, score := 0, gameOver := false, highScore := 0 } :=
  ((C4_axis_based_direction_changes.2.2
      { snake := [⟨1, 1⟩], food := ⟨2, 1⟩, direction := ⟨1, 0⟩,
        gameRunning := true, score := 0, gameOver := false, highScore := 0 }
      rfl).1) rfl

/-- The state invariant of C9: a finished game is never running. -/
def overImpliesNotRunning (s : GameState) : Prop :=
  s.gameOver = true → s.gameRunning = false

/-- C9: `gameOver = true → gameRunning = false` holds initially and is
preserved by the tick, reset, start, pause, and every key press; every
operation that sets `gameOver` also clears `gameRunning` in the same
step, and `startGame` resets `gameOver` before turning `gameRunning`
on. -/
theorem C9_over_implies_not_running :
    (∀ hs : Int, overImpliesNotRunning (initialState hs)) ∧
    (∀ (s : GameState) (rand : List Position) (s1 : GameState) (ws : List Int),
      overImpliesNotRunning s → moveSnake rand s = some (s1, ws) →
      overImpliesNotRunning s1) ∧
    (∀ s : GameState, overImpliesNotRunning (resetGame s)) ∧
    (∀ s : GameState, overImpliesNotRunning (startGame s)) ∧
    (∀ s : GameState, overImpliesNotRunning (pauseGame s)) ∧
    (∀ (s : GameState) (k : Key),
      overImpliesNotRunning s → overImpliesNotRunning (handleKeyPress k s)) := by
  refine ⟨?_, ?_, ?_, ?_, ?_, ?_⟩
  · intro hs
    intro hover
    rfl
  · intro s rand s1 ws hinv hmove
    rcases Bool.eq_false_or_eq_true s.gameRunning with hrun | hrun
    · rcases Bool.eq_false_or_eq_true s.gameOver with hover | hover
      · rw [moveSnake_idle rand s (Or.inr hover)] at hmove
        simp only [Option.some.injEq, Prod.mk.injEq] at hmove
        obtain ⟨rfl, rfl⟩ := hmove
        exact hinv
      · rcases hsnake : s.snake with - | ⟨h, t⟩
        · rw [moveSnake_nil rand s hrun hover hsnake] at hmove
          exact absurd hmove (by simp)
        · rw [moveSnake_cons rand s h t hsnake hrun hover] at hmove
          split at hmove
          · simp only [Option.some.injEq, Prod.mk.injEq] at hmove
            obtain ⟨rfl, rfl⟩ := hmove
            intro _
            rfl
          · split at hmove
            · simp only [Option.some.injEq, Prod.mk.injEq] at hmove
              obtain ⟨rfl, rfl⟩ := hmove
              intro _
              rfl
            · split at hmove
              · split at hmove
                · exact absurd hmove (by simp)
                · split at hmove <;>
                  · simp only [Option.some.injEq, Prod.mk.injEq] at hmove
                    obtain ⟨rfl, rfl⟩ := hmove
                    intro hover1
                    exact absurd hover1 (by simp [hover])
              · simp only [Option.some.injEq, Prod.mk.injEq] at hmove
                obtain ⟨rfl, rfl⟩ := hmove
                intro hover1
                exact absurd hover1 (by simp [hover])
    · rw [moveSnake_idle rand s (Or.inl hrun)] at hmove
      simp only [Option.some.injEq, Prod.mk.injEq] at hmove
      obtain ⟨rfl, rfl⟩ := hmove
      exact hinv
  · intro s _
    rfl
  · intro s
    intro hover1
    by_cases hgo : s.gameOver = true <;> simp [startGame, resetGame, hgo] at hover1
  · intro s _
    rfl
  · intro s k hinv
    unfold handleKeyPress
    by_cases hidle : s.gameRunning = false
    · rw [if_pos hidle]
      exact hinv
    · rw [if_neg hidle]
      match k with
      | .arrowUp | .arrowDown | .arrowLeft | .arrowRight =>
        show overImpliesNotRunning (if _ then _ else _)
        split
        · intro hover1
          have := hinv hover1
          simp_all
        · exact hinv
      | .space =>
        intro _
        rfl
      | .other =>
        exact hinv

theorem C9_witness : overImpliesNotRunning (initialState 7) :=
  C9_over_implies_not_running.1 7

/-- C10: `resetGame`, `startGame`, `pauseGame`, and every key press
leave `highScore` exactly unchanged, and a tick never decreases it, so
within a session `highScore` never decreases. -/
theorem C10_highscore_never_decreases :
    (∀ s : GameState, (resetGame s).highScore = s.highScore) ∧
    (∀ s : GameState, (startGame s).highScore = s.highScore) ∧
    (∀ s : GameState, (pauseGame s).highScore = s.highScore) ∧
    (∀ (s : GameState) (k : Key), (handleKeyPress k s).highScore = s.highScore) ∧
    (∀ (s : GameState) (rand : List Position) (s1 : GameState) (ws : List Int),
      moveSnake rand s = some (s1, ws) → s.highScore ≤ s1.highScore) := by
  refine ⟨fun s => rfl, ?_, fun s => rfl, ?_, ?_⟩
  · intro s
    unfold startGame
    by_cases hgo : s.gameOver = true <;> simp [hgo, resetGame]
  · intro s k
    cases k <;> simp [handleKeyPress, pauseGame, apply_ite]
  · intro s rand s1 ws hmove
    rcases Bool.eq_false_or_eq_true s.gameRunning with hrun | hrun
    · rcases Bool.eq_false_or_eq_true s.gameOver with hover | hover
      · rw [moveSnake_idle rand s (Or.inr hover)] at hmove
        simp only [Option.some.injEq, Prod.mk.injEq] at hmove
        obtain ⟨rfl, rfl⟩ := hmove
        exact le_refl _
      · rcases hsnake : s.snake with - | ⟨h, t⟩
        · rw [moveSnake_nil rand s hrun hover hsnake] at hmove
          exact absurd hmove (by simp)
        · rw [moveSnake_cons rand s h t hsnake hrun hover] at hmove
          split at hmove
          · simp only [Option.some.injEq, Prod.mk.injEq] at hmove
            obtain ⟨rfl, rfl⟩ := hmove
            exact le_refl _
          · split at hmove
            · simp only [Option.some.injEq, Prod.mk.injEq] at hmove
              obtain ⟨rfl, rfl⟩ := hmove
              exact le_refl _
            · split at hmove
              · split at hmove
                · exact absurd hmove (by simp)
                · split at hmove
                  · simp only [Option.some.injEq, Prod.mk.injEq] at hmove
                    obtain ⟨rfl, rfl⟩ := hmove
                    simp only []
                    omega
                  · simp only [Option.some.injEq, Prod.mk.injEq] at hmove
                    obtain ⟨rfl, rfl⟩ := hmove
                    exact le_refl _
              · simp only [Option.some.injEq, Prod.mk.injEq] at hmove
                obtain ⟨rfl, rfl⟩ := hmove
                exact le_refl _
    · rw [moveSnake_idle rand s (Or.inl hrun)] at hmove
      simp only [Option.some.injEq, Prod.mk.injEq] at hmove
      obtain ⟨rfl, rfl⟩ := hmove
      exact le_refl _

theorem C10_witness : (initialState 5).highScore ≤ (initialState 5).highScore :=
  C10_highscore_never_decreases.2.2.2.2 (initialState 5) [] (initialState 5) []
    (by decide)

/-- C5: on every non-terminal tick the new head is the old head plus
the current direction, component-wise over ℤ (no wrap-around); from the
initial state, started, 10 ticks move the head from (10,10) to (10,0),
and the 11th tick is a wall collision: `gameOver`, not `gameRunning`,
score still 0. -/
theorem C5_head_translation_and_wall_scenario :
    (∀ (s : GameState) (rand : List Position) (h : Position) (t : List Position)
        (s1 : GameState) (ws : List Int),
      s.gameRunning = true → s.gameOver = false → s.snake = h :: t →
      moveSnake rand s = some (s1, ws) → s1.gameOver = false →
      s1.snake.head? = some ⟨h.x + s.direction.x, h.y + s.direction.y⟩) ∧
    (tick^[10] (startGame (initialState 0))).snake.head? = some ⟨10, 0⟩ ∧
    (tick^[10] (startGame (initialState 0))).gameOver = false ∧
    (tick^[11] (startGame (initialState 0))).gameOver = true ∧
    (tick^[11] (startGame (initialState 0))).gameRunning = false ∧
    (tick^[11] (startGame (initialState 0))).score = 0 := by
  constructor
  · intro s rand h t s1 ws hrun hover hsnake hmove hterm
    rw [moveSnake_cons rand s h t hsnake hrun hover] at hmove
    split at hmove
    · simp only [Option.some.injEq, Prod.mk.injEq] at hmove
      obtain ⟨rfl, rfl⟩ := hmove
      simp at hterm
    · split at hmove
      · simp only [Option.some.injEq, Prod.mk.injEq] at hmove
        obtain ⟨rfl, rfl⟩ := hmove
        simp at hterm
      · split at hmove
        · split at hmove
          · exact absurd hmove (by simp)
          · split at hmove <;>
            · simp only [Option.some.injEq, Prod.mk.injEq] at hmove
              obtain ⟨rfl, rfl⟩ := hmove
              rfl
        · simp only [Option.some.injEq, Prod.mk.injEq] at hmove
          obtain ⟨rfl, rfl⟩ := hmove
          rfl
  · refine ⟨?_, ?_, ?_, ?_, ?_⟩ <;> decide

theorem C5_witness :
    (tick (startGame (initialState 0))).snake.head? =
      some ⟨10 + (0 : Int), 10 + (-1 : Int)⟩ :=
  C5_head_translation_and_wall_scenario.1 (startGame (initialState 0)) []
    ⟨10, 10⟩ [] (tick (startGame (initialState 0))) []
    rfl rfl rfl (by decide) (by decide)

/-- C6: a non-terminal tick that reaches the food adds 10 to the score
and prepends the new head without dropping the tail (length + 1); a
non-terminal tick that misses the food drops the last cell (length
unchanged, score unchanged).  Concretely, from snake [(1,1)], food
(2,1), direction (1,0), one tick gives score 10 and snake
[(2,1),(1,1)]. -/
theorem C6_eating_grows_score_and_snake :
    (∀ (s : GameState) (rand : List Position) (h : Position) (t : List Position)
        (s1 : GameState) (ws : List Int),
      s.gameRunning = true → s.gameOver = false → s.snake = h :: t →
      moveSnake rand s = some (s1, ws) → s1.gameOver = false →
      ((h.x + s.direction.x = s.food.x ∧ h.y + s.direction.y = s.food.y) →
        s1.score = s.score + 10 ∧
        s1.snake = (⟨h.x + s.direction.x, h.y + s.direction.y⟩ : Position) :: s.snake ∧
        s1.snake.length = s.snake.length + 1) ∧
      (¬(h.x + s.direction.x = s.food.x ∧ h.y + s.direction.y = s.food.y) →
        s1.snake =
          ((⟨h.x + s.direction.x, h.y + s.direction.y⟩ : Position) :: s.snake).dropLast ∧
        s1.snake.length = s.snake.length ∧ s1.score = s.score)) ∧
    moveSnake [⟨0, 0⟩]
        { snake := [⟨1, 1⟩], food := ⟨2, 1⟩, direction := ⟨1, 0⟩,
          gameRunning := true, score := 0, gameOver := false, highScore := 0 } =
      some ({ snake := [⟨2, 1⟩, ⟨1, 1⟩], food := ⟨0, 0⟩, direction := ⟨1, 0⟩,
              gameRunning := true, score := 10, gameOver := false, highScore := 10 },
            [10]) := by
  constructor
  · intro s rand h t s1 ws hrun hover hsnake hmove hterm
    rw [moveSnake_cons rand s h t hsnake hrun hover] at hmove
    split at hmove
    · simp only [Option.some.injEq, Prod.mk.injEq] at hmove
      obtain ⟨rfl, rfl⟩ := hmove
      simp at hterm
    · split at hmove
      · simp only [Option.some.injEq, Prod.mk.injEq] at hmove
        obtain ⟨rfl, rfl⟩ := hmove
        simp at hterm
      · rename_i hnw hnocc
        split at hmove
        · rename_i hfood
          split at hmove
          · exact absurd hmove (by simp)
          · constructor
            · intro _
              split at hmove <;>
              · simp only [Option.some.injEq, Prod.mk.injEq] at hmove
                obtain ⟨rfl, rfl⟩ := hmove
                refine ⟨rfl, ?_, ?_⟩ <;> simp [hsnake]
            · intro hf
              exact absurd hfood hf
        · rename_i hfood
          constructor
          · intro hf
            exact absurd hf hfood
          · intro _
            simp only [Option.some.injEq, Prod.mk.injEq] at hmove
            obtain ⟨rfl, rfl⟩ := hmove
            refine ⟨by simp [hsnake], ?_, rfl⟩
            simp [hsnake]
  · decide

theorem C6_witness :
    ({ snake := [⟨2, 1⟩, ⟨1, 1⟩], food := ⟨0, 0⟩, direction := ⟨1, 0⟩,
       gameRunning := true, score := 10, gameOver := false,
       highScore := 10 } : GameState).score = 0 + 10 :=
  (((C6_eating_grows_score_and_snake.1
      { snake := [⟨1, 1⟩], food := ⟨2, 1⟩, direction := ⟨1, 0⟩,
        gameRunning := true, score := 0, gameOver := false, highScore := 0 }
      [⟨0, 0⟩] ⟨1, 1⟩ []
      { snake := [⟨2, 1⟩, ⟨1, 1⟩], food := ⟨0, 0⟩, direction := ⟨1, 0⟩,
        gameRunning := true, score := 10, gameOver := false, highScore := 10 }
      [10] rfl rfl rfl (by decide) (by decide)).1) (by decide)).1

/-- C7: on a non-terminal food-eating tick, if the new score exceeds
the current high score then exactly one store write of the new score
happens and `highScore` becomes the new score; otherwise no write
happens and `highScore` is unchanged. -/
theorem C7_highscore_persistence :
    ∀ (s : GameState) (rand : List Position) (h : Position) (t : List Position)
      (s1 : GameState) (ws : List Int),
      s.gameRunning = true → s.gameOver = false → s.snake = h :: t →
      moveSnake rand s = some (s1, ws) → s1.gameOver = false →
      (h.x + s.direction.x = s.food.x ∧ h.y + s.direction.y = s.food.y) →
      ((s.score + 10 > s.highScore →
          ws = [s.score + 10] ∧ s1.highScore = s.score + 10) ∧
       (¬(s.score + 10 > s.highScore) →
          ws = [] ∧ s1.highScore = s.highScore)) := by
  intro s rand h t s1 ws hrun hover hsnake hmove hterm hfood
  rw [moveSnake_cons rand s h t hsnake hrun hover] at hmove
  split at hmove
  · simp only [Option.some.injEq, Prod.mk.injEq] at hmove
    obtain ⟨rfl, rfl⟩ := hmove
    simp at hterm
  · split at hmove
    · simp only [Option.some.injEq, Prod.mk.injEq] at hmove
      obtain ⟨rfl, rfl⟩ := hmove
      simp at hterm
    · split at hmove
      · exact absurd hmove (by simp)
      · split at hmove
        · rename_i hgt
          simp only [Option.some.injEq, Prod.mk.injEq] at hmove
          obtain ⟨rfl, rfl⟩ := hmove
          exact ⟨fun _ => ⟨rfl, rfl⟩, fun hng => absurd hgt hng⟩
        · rename_i hng
          simp only [Option.some.injEq, Prod.mk.injEq] at hmove
          obtain ⟨rfl, rfl⟩ := hmove
          exact ⟨fun hgt => absurd hgt hng, fun _ => ⟨rfl, rfl⟩⟩

theorem C7_witness :
    ([10] : List Int) = [0 + 10] ∧
    ({ snake := [⟨2, 1⟩, ⟨1, 1⟩], food := ⟨0, 0⟩, direction := ⟨1, 0⟩,
       gameRunning := true, score := 10, gameOver := false,
       highScore := 10 } : GameState).highScore = 0 + 10 :=
  (C7_highscore_persistence
      { snake := [⟨1, 1⟩], food := ⟨2, 1⟩, direction := ⟨1, 0⟩,
        gameRunning := true, score := 0, gameOver := false, highScore := 0 }
      [⟨0, 0⟩] ⟨1, 1⟩ []
      { snake := [⟨2, 1⟩, ⟨1, 1⟩], food := ⟨0, 0⟩, direction := ⟨1, 0⟩,
        gameRunning := true, score := 10, gameOver := false, highScore := 10 }
      [10] rfl rfl rfl (by decide) (by decide) (by decide)).1 (by decide)

/-- C8: a tick that does not end the game maps a duplicate-free snake
list to a duplicate-free snake list: the self-collision check rejects
any new head lying on the snake, so prepending it (and possibly
dropping the tail) preserves distinctness. -/
theorem C8_snake_nodup_preserved :
    ∀ (s : GameState) (rand : List Position) (s1 : GameState) (ws : List Int),
      s.snake.Nodup → moveSnake rand s = some (s1, ws) → s1.gameOver = false →
      s1.snake.Nodup := by
  intro s rand s1 ws hnd hmove hterm
  rcases Bool.eq_false_or_eq_true s.gameRunning with hrun | hrun
  · rcases Bool.eq_false_or_eq_true s.gameOver with hover | hover
    · rw [moveSnake_idle rand s (Or.inr hover)] at hmove
      simp only [Option.some.injEq, Prod.mk.injEq] at hmove
      obtain ⟨rfl, rfl⟩ := hmove
      exact hnd
    · rcases hsnake : s.snake with - | ⟨h, t⟩
      · rw [moveSnake_nil rand s hrun hover hsnake] at hmove
        exact absurd hmove (by simp)
      · rw [moveSnake_cons rand s h t hsnake hrun hover] at hmove
        split at hmove
        · simp only [Option.some.injEq, Prod.mk.injEq] at hmove
          obtain ⟨rfl, rfl⟩ := hmove
          simp at hterm
        · split at hmove
          · simp only [Option.some.injEq, Prod.mk.injEq] at hmove
            obtain ⟨rfl, rfl⟩ := hmove
            simp at hterm
          · rename_i hnw hnocc
            have hnotmem :
                (⟨h.x + s.direction.x, h.y + s.direction.y⟩ : Position) ∉ h :: t := by
              intro hmem
              exact hnocc ((occupiesCell_iff _ _).mpr hmem)
            have hcons :
                ((⟨h.x + s.direction.x, h.y + s.direction.y⟩ : Position) :: h :: t).Nodup := by
              rw [List.nodup_cons]
              exact ⟨hnotmem, hsnake ▸ hnd⟩
            split at hmove
            · split at hmove
              · exact absurd hmove (by simp)
              · split at hmove <;>
                · simp only [Option.some.injEq, Prod.mk.injEq] at hmove
                  obtain ⟨rfl, rfl⟩ := hmove
                  exact hcons
            · simp only [Option.some.injEq, Prod.mk.injEq] at hmove
              obtain ⟨rfl, rfl⟩ := hmove
              exact List.Nodup.sublist (List.dropLast_sublist _) hcons
  · rw [moveSnake_idle rand s (Or.inl hrun)] at hmove
    simp only [Option.some.injEq, Prod.mk.injEq] at hmove
    obtain ⟨rfl, rfl⟩ := hmove
    exact hnd

theorem C8_witness :
    ({ snake := [⟨10, 9⟩], food := ⟨5, 5⟩, direction := ⟨0, -1⟩,
       gameRunning := true, score := 0, gameOver := false,
       highScore := 0 } : GameState).snake.Nodup :=
  C8_snake_nodup_preserved
    { snake := [⟨10, 10⟩], food := ⟨5, 5⟩, direction := ⟨0, -1⟩,
      gameRunning := true, score := 0, gameOver := false, highScore := 0 }
    []
    { snake := [⟨10, 9⟩], food := ⟨5, 5⟩, direction := ⟨0, -1⟩,
      gameRunning := true, score := 0, gameOver := false, highScore := 0 }
    [] (by decide) (by decide) (by decide)

theorem digitChar_isDigit (d : Nat) (hd : d < 10) : (Nat.digitChar d).isDigit = true := by
  interval_cases d <;> decide

theorem digitChar_toNat_sub (d : Nat) (hd : d < 10) : (Nat.digitChar d).toNat - 48 = d := by
  interval_cases d <;> decide

theorem toDigitsCore_eq_decDigits (fuel n : Nat) (ds : List Char) (hfuel : n < fuel) :
    Nat.toDigitsCore 10 fuel n ds = decDigits n ++ ds := by
  induction fuel generalizing n ds with
  | zero => omega
  | succ fuel ih =>
    show (if n / 10 = 0 then Nat.digitChar (n % 10) :: ds
          else Nat.toDigitsCore 10 fuel (n / 10) (Nat.digitChar (n % 10) :: ds)) =
      decDigits n ++ ds
    by_cases h0 : n / 10 = 0
    · rw [if_pos h0]
      have hn : n < 10 := by omega
      rw [decDigits, dif_pos hn, Nat.mod_eq_of_lt hn]
      rfl
    · rw [if_neg h0]
      have hn10 : ¬ n < 10 := by omega
      rw [ih (n / 10) _ (by omega)]
      conv_rhs => rw [decDigits]
      rw [dif_neg hn10]
      simp

theorem decDigits_all_isDigit (n : Nat) : ∀ c ∈ decDigits n, c.isDigit = true := by
  induction n using Nat.strong_induction_on with
  | _ n ih =>
    rw [decDigits]
    split
    · rename_i hlt
      intro c hc
      simp only [List.mem_singleton] at hc
      subst hc
      exact digitChar_isDigit n hlt
    · rename_i hge
      intro c hc
      rw [List.mem_append] at hc
      rcases hc with hc | hc
      · exact ih (n / 10) (Nat.div_lt_self (by omega) (by omega)) c hc
      · simp only [List.mem_singleton] at hc
        subst hc
        exact digitChar_isDigit _ (Nat.mod_lt _ (by omega))

theorem decDigits_ne_nil (n : Nat) : decDigits n ≠ [] := by
  rw [decDigits]
  split <;> simp

theorem jsParseDigits_append_digits (l1 l2 : List Char) (acc : Nat)
    (hall : ∀ c ∈ l1, c.isDigit = true) :
    jsParseDigits (l1 ++ l2) acc = jsParseDigits l2 (jsParseDigits l1 acc) := by
  induction l1 generalizing acc with
  | nil => rfl
  | cons c cs ih =>
    have hc : c.isDigit = true := hall c (by simp)
    simp only [List.cons_append, jsParseDigits, hc, if_true]
    exact ih _ fun d hd => hall d (by simp [hd])

theorem jsParseDigits_decDigits (n : Nat) :
    ∀ acc : Nat, jsParseDigits (decDigits n) acc = acc * 10 ^ (decDigits n).length + n := by
  induction n using Nat.strong_induction_on with
  | _ n ih =>
    intro acc
    rw [decDigits]
    split
    · rename_i hlt
      simp only [jsParseDigits, digitChar_isDigit n hlt, if_true, digitChar_toNat_sub n hlt]
      simp
    · rename_i hge
      rw [jsParseDigits_append_digits _ _ _ (fun c hc => decDigits_all_isDigit _ c hc)]
      rw [ih (n / 10) (Nat.div_lt_self (by omega) (by omega))]
      have hm : n % 10 < 10 := Nat.mod_lt _ (by omega)
      simp only [jsParseDigits, digitChar_isDigit _ hm, if_true, digitChar_toNat_sub _ hm]
      rw [List.length_append, List.length_singleton]
      have h2 : n / 10 * 10 + n % 10 = n := by omega
      calc (acc * 10 ^ (decDigits (n / 10)).length + n / 10) * 10 + n % 10
          = acc * (10 ^ (decDigits (n / 10)).length * 10) + (n / 10 * 10 + n % 10) := by ring
        _ = acc * 10 ^ ((decDigits (n / 10)).length + 1) + n := by rw [pow_succ, h2]

theorem isDigit_not_jsSpace (c : Char) (hc : c.isDigit = true) : jsIsSpace c = false := by
  unfold jsIsSpace
  by_contra hne
  rw [Bool.not_eq_false] at hne
  simp only [Bool.or_eq_true, beq_iff_eq] at hne
  rcases hne with ((rfl | rfl) | rfl) | rfl <;> exact absurd hc (by decide)

theorem repr_data (n : Nat) : (Nat.repr n).data = decDigits n := by
  show (Nat.toDigits 10 n).asString.data = decDigits n
  rw [Nat.toDigits, toDigitsCore_eq_decDigits (n + 1) n [] (Nat.lt_succ_self n)]
  simp [List.asString]

theorem parseIntJs_repr (n : Nat) : parseIntJs (Nat.repr n) = some (n : Int) := by
  obtain ⟨c, cs, hcons⟩ := List.exists_cons_of_ne_nil (decDigits_ne_nil n)
  have hcdig : c.isDigit = true := decDigits_all_isDigit n c (by rw [hcons]; simp)
  have hnd : ¬(c = '-') := fun he => absurd hcdig (by rw [he]; decide)
  have hnp : ¬(c = '+') := fun he => absurd hcdig (by rw [he]; decide)
  unfold parseIntJs
  rw [repr_data, hcons, List.dropWhile_cons, isDigit_not_jsSpace c hcdig]
  simp only [Bool.false_eq_true, if_false]
  rw [if_neg hnd, if_neg hnp, if_pos hcdig]
  rw [← hcons, jsParseDigits_decDigits n 0]
  simp

/-- C3 counterexample: for the stored value "abc" — present but not
parseable as an integer — the initialiser returns `parseInt("abc")`,
which is `NaN` (modelled `none`), not the claimed default 0. -/
theorem C3_counterexample_malformed_gives_nan :
    loadHighScore (some "abc") = none ∧ loadHighScore (some "abc") ≠ some 0 := by
  constructor
  · decide
  · decide

/-- C3 (amended): loading the persisted high score yields the stored
integer when the store holds the decimal representation of a natural
number, and degrades to 0 when the value is absent or empty; but a
present, non-empty, non-parseable value (e.g. "abc") yields `NaN`, not
0.  No exception reaches the user in any case (the initialiser is a
total function of the stored value). -/
theorem C3_load_highscore :
    loadHighScore none = some 0 ∧
    loadHighScore (some "") = some 0 ∧
    (∀ n : Nat, loadHighScore (some (Nat.repr n)) = some (n : Int)) ∧
    loadHighScore (some "abc") = none := by
  refine ⟨rfl, by decide, ?_, by decide⟩
  intro n
  have hne : Nat.repr n ≠ "" := by
    intro he
    have hd : (Nat.repr n).data = [] := by rw [he]
    rw [repr_data] at hd
    exact decDigits_ne_nil n hd
  show (if Nat.repr n = "" then some 0 else parseIntJs (Nat.repr n)) = some (n : Int)
  rw [if_neg hne]
  exact parseIntJs_repr n

end Snake
